import Mathlib

/-!
Shallow embedding of `proc-macro-crate` (`src/lib.rs`): the manifest
resolution pipeline `crate_name` with its helpers `sanitize_crate_name`,
`open_cargo_toml`, `extract_crate_names`, `extract_package_name`,
`target_dep_tables` and `dep_tables`, together with theorems checking the
specification's claims about them.

The TOML document tree (produced by the external `toml` crate) is modelled
as a tagged variant: string scalar, table (association list of key/value
pairs, keys unique in a parsed document) or any other value (integer,
float, boolean, datetime, array), which the code only ever probes with
`as_table` / `as_str`.  `BTreeMap` is modelled as an association list with
key-overwriting insert.  The process environment, filesystem and external
TOML decoder are modelled as a `World` record, and the `once_cell` cache
as explicit state of type `Option Cache` threaded through `crate_name`:
the cell is written exactly when initialization succeeds, mirroring
`OnceCell::get_or_try_init`, which leaves the cell empty when the
initializer fails.
-/

/-- A node of the parsed TOML document (`toml::Value`).  `other` stands for
the value kinds (integer, float, boolean, datetime, array) on which both
`as_table` and `as_str` return `None`. -/
inductive TomlValue where
  | str (s : String)
  | table (entries : List (String × TomlValue))
  | other
deriving Inhabited

/-- `toml::value::Table`: a map from `String` keys to values, modelled as an
association list (keys are unique in a parsed document). -/
abbrev Table := List (String × TomlValue)

/-- `Table::get`: first binding of the key, if any. -/
def getT : Table → String → Option TomlValue
  | [], _ => none
  | (k, v) :: rest, key => if k = key then some v else getT rest key

/-- `toml::Value::as_table`. -/
def asTable : TomlValue → Option Table
  | .table t => some t
  | _ => none

/-- `toml::Value::as_str`. -/
def asStr : TomlValue → Option String
  | .str s => some s
  | _ => none

/-- `FoundCrate`: result of a successful resolution. -/
inductive FoundCrate where
  | Itself
  | Name (name : String)
deriving DecidableEq, Repr

/-- The `Error` enum.  `CouldNotRead` and `InvalidToml` drop their opaque
`io::Error` / `toml::de::Error` sources, which the code never inspects. -/
inductive Error where
  | NotFound (path : String)
  | CargoManifestDirNotSet
  | CouldNotRead (path : String)
  | InvalidToml
  | CrateNotFound (crate_name : String) (path : String)
deriving DecidableEq, Repr

/-- `sanitize_crate_name`: `name.replace('-', "_")` — with a single-char
pattern and single-char replacement this is a character map. -/
def sanitize_crate_name (name : String) : String :=
  String.mk (name.data.map (fun c => if c = '-' then '_' else c))

/-- `BTreeMap::insert`-style key-overwriting insert on the association-list
model of the map. -/
def mapInsert (m : List (String × FoundCrate)) (e : String × FoundCrate) :
    List (String × FoundCrate) :=
  match m with
  | [] => [e]
  | (k', v') :: rest =>
    if e.1 = k' then (e.1, e.2) :: rest else (k', v') :: mapInsert rest e

/-- `BTreeMap::get` on the association-list model. -/
def mapGet (m : List (String × FoundCrate)) (k : String) : Option FoundCrate :=
  match m with
  | [] => none
  | (k', v') :: rest => if k = k' then some v' else mapGet rest k

/-- `Iterator::collect::<BTreeMap<_, _>>()`: fold the key/value stream into
the map, later duplicates overwriting earlier ones. -/
def collect (l : List (String × FoundCrate)) : List (String × FoundCrate) :=
  l.foldl mapInsert []

/-- `extract_package_name`:
`cargo_toml.get("package")?.as_table()?.get("name")?.as_str()`. -/
def extract_package_name (cargo_toml : Table) : Option String :=
  ((getT cargo_toml "package").bind asTable).bind
    (fun pkg => (getT pkg "name").bind asStr)

/-- The `root_pkg` binding inside `extract_crate_names`: the self entry.
`secondary` tells whether `CARGO_TARGET_TMPDIR` is set (integration-test
build) — passed explicitly instead of read from the process environment. -/
def root_pkg (secondary : Bool) (cargo_toml : Table) :
    Option (String × FoundCrate) :=
  (extract_package_name cargo_toml).map (fun name =>
    (name,
      if secondary then FoundCrate.Name (sanitize_crate_name name)
      else FoundCrate.Itself))

/-- `dep_tables`: the `dependencies` and `dev-dependencies` values of a
table, keeping only those that are themselves tables. -/
def dep_tables (table : Table) : List Table :=
  ((getT table "dependencies").toList ++
    (getT table "dev-dependencies").toList).filterMap asTable

/-- `target_dep_tables`: for every value of the top-level `target` table
that is itself a table, its `dep_tables`; the platform/condition keys are
never looked at. -/
def target_dep_tables (cargo_toml : Table) : List Table :=
  (((getT cargo_toml "target").toList.filterMap asTable).map
    (fun t => ((t.map Prod.snd).filterMap asTable).map dep_tables)).flatten.flatten

/-- The closure mapped over the flattened dependency entries inside
`extract_crate_names`: canonical (published) name and local resolution of
one dependency declaration. -/
def dep_pkg_entry (dep : String × TomlValue) : String × FoundCrate :=
  let pkg_name :=
    ((asTable dep.2).bind (fun t => (getT t "package").bind asStr)).getD dep.1
  (pkg_name, FoundCrate.Name (sanitize_crate_name dep.1))

/-- The `dep_pkgs` stream inside `extract_crate_names`: all dependency
declarations of the direct tables followed by the target tables, mapped
through `dep_pkg_entry`. -/
def dep_pkgs (cargo_toml : Table) : List (String × FoundCrate) :=
  ((dep_tables cargo_toml ++ target_dep_tables cargo_toml).flatten).map
    dep_pkg_entry

/-- The entry stream collected by `extract_crate_names`: optional self
entry first, then the dependency entries. -/
def extract_list (secondary : Bool) (cargo_toml : Table) :
    List (String × FoundCrate) :=
  (root_pkg secondary cargo_toml).toList ++ dep_pkgs cargo_toml

/-- `extract_crate_names`: its body is `Ok(root_pkg.into_iter()
.chain(dep_pkgs).collect())` — the `Result` error branch is never built. -/
def extract_crate_names (secondary : Bool) (cargo_toml : Table) :
    Except Error (List (String × FoundCrate)) :=
  .ok (collect (extract_list secondary cargo_toml))

/-- What the filesystem returns for `File::open` + `read_to_string`. -/
inductive FsRead where
  | ioError
  | content (s : String)

/-- The external collaborators of `crate_name`: the process environment
(`CARGO_MANIFEST_DIR`, presence of `CARGO_TARGET_TMPDIR`), the filesystem
(`Path::exists`, open/read) and the external TOML decoder
(`toml::from_str`, `none` for a parse failure). -/
structure World where
  cargo_manifest_dir : Option String
  cargo_target_tmpdir_set : Bool
  path_exists : String → Bool
  read : String → FsRead
  parse : String → Option Table

/-- The `Cache` struct stored in the `OnceCell`. -/
structure Cache where
  manifest_dir : String
  manifest_path : String
  crate_names : List (String × FoundCrate)

/-- Outcome of one `crate_name` call; `panicked` is the
`assert_eq!(manifest_dir, cache.manifest_dir, ..)` failure. -/
inductive CallResult where
  | ok (found : FoundCrate)
  | err (e : Error)
  | panicked
deriving DecidableEq, Repr

/-- `open_cargo_toml`: read the file (both open and read failures become
`CouldNotRead`), then parse it (`InvalidToml` on decoder failure). -/
def open_cargo_toml (w : World) (path : String) : Except Error Table :=
  match w.read path with
  | .ioError => .error (.CouldNotRead path)
  | .content s =>
    match w.parse s with
    | none => .error .InvalidToml
    | some t => .ok t

/-- The `get_or_try_init` initializer closure: check the manifest exists at
`<dir>/Cargo.toml`, read and parse it, extract the crate names. -/
def init_cache (w : World) (manifest_dir : String) : Except Error Cache :=
  let manifest_path := manifest_dir ++ "/Cargo.toml"
  if w.path_exists manifest_path then
    match open_cargo_toml w manifest_path with
    | .error e => .error e
    | .ok manifest =>
      match extract_crate_names w.cargo_target_tmpdir_set manifest with
      | .error e => .error e
      | .ok crate_names => .ok ⟨manifest_dir, manifest_path, crate_names⟩
  else
    .error (.NotFound manifest_dir)

/-- `crate_name` with the `OnceCell` state passed explicitly: read
`CARGO_MANIFEST_DIR` first, then fill the cell if empty (a failing
initializer leaves it empty, as `get_or_try_init` does), assert the
directory is unchanged, and look the name up in the cached table. -/
def crate_name (w : World) (st : Option Cache) (orig_name : String) :
    CallResult × Option Cache :=
  match w.cargo_manifest_dir with
  | none => (.err .CargoManifestDirNotSet, st)
  | some manifest_dir =>
    match (match st with
           | some c => .ok c
           | none => init_cache w manifest_dir : Except Error Cache) with
    | .error e => (.err e, st)
    | .ok c =>
      if manifest_dir = c.manifest_dir then
        match mapGet c.crate_names orig_name with
        | some fc => (.ok fc, some c)
        | none => (.err (.CrateNotFound orig_name c.manifest_path), some c)
      else
        (.panicked, some c)

/-- Last binding of a key in an entry stream: the value that survives
`collect`'s overwrite-on-duplicate. -/
def lastMatch (l : List (String × FoundCrate)) (k : String) :
    Option FoundCrate :=
  match l with
  | [] => none
  | e :: rest =>
    match lastMatch rest k with
    | some v => some v
    | none => if e.1 = k then some e.2 else none

/-- A world whose manifest directory is `/my-crate` and whose
`/my-crate/Cargo.toml` parses to the given document; primary build. -/
def worldOf (doc : Table) : World where
  cargo_manifest_dir := some "/my-crate"
  cargo_target_tmpdir_set := false
  path_exists := fun _ => true
  read := fun _ => .content "the manifest"
  parse := fun _ => some doc

/-- `[dependencies]` `cool = { package = "foo", version = "0.1" }`. -/
def docRenamed : Table :=
  [("dependencies", .table
    [("cool", .table [("package", .str "foo"), ("version", .str "0.1")])])]

/-- `[package]` `name = "foo"`. -/
def docSelf : Table :=
  [("package", .table [("name", .str "foo")])]

/-- `[dependencies]` `a-b = "0.1"`. -/
def docDash : Table :=
  [("dependencies", .table [("a-b", .str "0.1")])]

/-- `[target.'cfg(target_os="android")'.dependencies]` `foo = "0.1"`. -/
def docTargetCfg : Table :=
  [("target", .table
    [("cfg(target_os=\"android\")", .table
      [("dependencies", .table [("foo", .str "0.1")])])])]

/-- `[target.x86_64-pc-windows-gnu.dependencies]` `foo = "0.1"`. -/
def docTargetTriple : Table :=
  [("target", .table
    [("x86_64-pc-windows-gnu", .table
      [("dependencies", .table [("foo", .str "0.1")])])])]

/-- `[dependencies]` `foo = "0.1"`. -/
def docSimple : Table :=
  [("dependencies", .table [("foo", .str "0.1")])]

/-- `[package]` `name = "foo"` plus `[dependencies]`
`bar = { package = "foo" }`: a dependency whose canonical name collides
with the package's own name. -/
def docCollide : Table :=
  [("package", .table [("name", .str "foo")]),
   ("dependencies", .table [("bar", .table [("package", .str "foo")])])]

/-- A direct dependency and a target dependency with the same canonical
name `foo`, declared under the local names `c1` and `c2`. -/
def docOrder : Table :=
  [("dependencies", .table [("c1", .table [("package", .str "foo")])]),
   ("target", .table
    [("t", .table
      [("dependencies", .table [("c2", .table [("package", .str "foo")])])])])]

/-- A world whose manifest file does not parse as TOML. -/
def worldBadToml : World where
  cargo_manifest_dir := some "/my-crate"
  cargo_target_tmpdir_set := false
  path_exists := fun _ => true
  read := fun _ => .content "not toml"
  parse := fun _ => none

/-- A world whose manifest directory contains no `Cargo.toml`. -/
def worldNoManifest : World where
  cargo_manifest_dir := some "/my-crate"
  cargo_target_tmpdir_set := false
  path_exists := fun _ => false
  read := fun _ => .ioError
  parse := fun _ => none

/-- A world in which `CARGO_MANIFEST_DIR` is not set. -/
def worldNoEnv : World where
  cargo_manifest_dir := none
  cargo_target_tmpdir_set := false
  path_exists := fun _ => true
  read := fun _ => .content "the manifest"
  parse := fun _ => some docSimple

/-- A cache as built from `docSimple` in `worldOf docSimple`. -/
def cacheSimple : Cache where
  manifest_dir := "/my-crate"
  manifest_path := "/my-crate/Cargo.toml"
  crate_names := [("foo", .Name "foo")]

/-! ## Helper lemmas -/

theorem mapGet_mapInsert (m : List (String × FoundCrate)) (e : String × FoundCrate)
    (k : String) :
    mapGet (mapInsert m e) k = if k = e.1 then some e.2 else mapGet m k := by
  induction m with
  | nil => simp [mapInsert, mapGet]
  | cons hd tl ih =>
    obtain ⟨k', v'⟩ := hd
    by_cases h1 : e.1 = k'
    · by_cases h2 : k = e.1 <;> simp_all [mapInsert, mapGet]
    · by_cases h2 : k = e.1 <;> by_cases h3 : k = k' <;>
        simp_all [mapInsert, mapGet]

theorem mapGet_foldl (l : List (String × FoundCrate)) :
    ∀ (m : List (String × FoundCrate)) (k : String),
    mapGet (l.foldl mapInsert m) k =
      match lastMatch l k with
      | some v => some v
      | none => mapGet m k := by
  induction l with
  | nil => intro m k; simp [lastMatch]
  | cons e tl ih =>
    intro m k
    simp only [List.foldl_cons]
    rw [ih (mapInsert m e) k]
    cases htl : lastMatch tl k with
    | some v => simp [lastMatch, htl]
    | none =>
      simp only [lastMatch, htl]
      rw [mapGet_mapInsert]
      by_cases h2 : e.1 = k
      · simp [h2]
      · have h2' : ¬ k = e.1 := fun h => h2 h.symm
        simp [h2, h2']

theorem mapGet_collect (l : List (String × FoundCrate)) (k : String) :
    mapGet (collect l) k = lastMatch l k := by
  have h := mapGet_foldl l [] k
  simp only [collect]
  rw [h]
  cases lastMatch l k <;> simp [mapGet]

theorem lastMatch_mem {l : List (String × FoundCrate)} {k : String}
    {v : FoundCrate} (h : lastMatch l k = some v) : (k, v) ∈ l := by
  induction l with
  | nil => simp [lastMatch] at h
  | cons e tl ih =>
    obtain ⟨e1, e2⟩ := e
    simp only [lastMatch] at h
    cases htl : lastMatch tl k with
    | some w =>
      rw [htl] at h
      cases h
      exact List.mem_cons_of_mem _ (ih htl)
    | none =>
      rw [htl] at h
      by_cases he : e1 = k
      · rw [if_pos he] at h
        cases h
        subst he
        exact List.mem_cons_self _ _
      · simp only [he, if_false] at h
        simp at h

theorem lastMatch_append (l₁ l₂ : List (String × FoundCrate)) (k : String) :
    lastMatch (l₁ ++ l₂) k =
      match lastMatch l₂ k with
      | some v => some v
      | none => lastMatch l₁ k := by
  induction l₁ with
  | nil =>
    simp only [List.nil_append]
    cases lastMatch l₂ k <;> simp [lastMatch]
  | cons e tl ih =>
    show (match lastMatch (tl ++ l₂) k with
          | some v => some v
          | none => if e.1 = k then some e.2 else none) = _
    rw [ih]
    cases h2 : lastMatch l₂ k with
    | some v => rfl
    | none => cases h1 : lastMatch tl k <;> simp [lastMatch, h1]

theorem lastMatch_eq_none {l : List (String × FoundCrate)} {k : String}
    (h : ∀ e ∈ l, e.1 ≠ k) : lastMatch l k = none := by
  induction l with
  | nil => rfl
  | cons e tl ih =>
    simp only [lastMatch]
    rw [ih (fun e' he' => h e' (List.mem_cons_of_mem _ he'))]
    simp [h e (List.mem_cons_self _ _)]

theorem dep_pkg_entry_snd (d : String × TomlValue) :
    (dep_pkg_entry d).2 = .Name (sanitize_crate_name d.1) := rfl

theorem extract_list_shape {s : Bool} {doc : Table} {k : String}
    {v : FoundCrate} (h : (k, v) ∈ extract_list s doc) :
    v = .Itself ∨ ∃ nm, v = .Name (sanitize_crate_name nm) := by
  simp only [extract_list, List.mem_append] at h
  rcases h with h | h
  · cases hr : extract_package_name doc with
    | none => simp [root_pkg, hr, Option.toList] at h
    | some n =>
      cases s with
      | false =>
        simp [root_pkg, hr, Option.toList, Prod.ext_iff] at h
        left
        exact h.2
      | true =>
        simp [root_pkg, hr, Option.toList, Prod.ext_iff] at h
        right
        exact ⟨n, h.2⟩
  · simp only [dep_pkgs, List.mem_map] at h
    obtain ⟨d, _, hd⟩ := h
    right
    refine ⟨d.1, ?_⟩
    rw [← dep_pkg_entry_snd d, hd]

theorem sanitize_no_dash (s : String) : '-' ∉ (sanitize_crate_name s).data := by
  intro h
  have h' : '-' ∈ s.data.map (fun c => if c = '-' then '_' else c) := h
  simp only [List.mem_map] at h'
  obtain ⟨c, _, hc⟩ := h'
  by_cases h2 : c = '-' <;> simp [h2] at hc

theorem init_cache_ok {w : World} {d : String} {c : Cache}
    (h : init_cache w d = .ok c) :
    c.manifest_dir = d ∧ c.manifest_path = d ++ "/Cargo.toml" := by
  simp only [init_cache] at h
  split at h
  · cases ho : open_cargo_toml w (d ++ "/Cargo.toml") with
    | error e => rw [ho] at h; cases h
    | ok manifest =>
      rw [ho] at h
      simp only [extract_crate_names] at h
      cases h
      exact ⟨rfl, rfl⟩
  · cases h

theorem crate_name_env_unset {w : World} (st : Option Cache) (n : String)
    (h : w.cargo_manifest_dir = none) :
    crate_name w st n = (.err .CargoManifestDirNotSet, st) := by
  simp [crate_name, h]

theorem crate_name_cached {w : World} {d : String} (c : Cache) (n : String)
    (hd : w.cargo_manifest_dir = some d) (hq : d = c.manifest_dir) :
    crate_name w (some c) n =
      (match mapGet c.crate_names n with
       | some fc => .ok fc
       | none => .err (.CrateNotFound n c.manifest_path), some c) := by
  simp only [crate_name, hd, hq]
  cases hg : mapGet c.crate_names n <;> simp [hg]

theorem crate_name_uninit {w : World} {d : String} (n : String)
    (hd : w.cargo_manifest_dir = some d) :
    crate_name w none n =
      match init_cache w d with
      | .error e => (.err e, none)
      | .ok c =>
        match mapGet c.crate_names n with
        | some fc => (.ok fc, some c)
        | none => (.err (.CrateNotFound n c.manifest_path), some c) := by
  simp only [crate_name, hd]
  cases hi : init_cache w d with
  | error e => rfl
  | ok c =>
    have hc := (init_cache_ok hi).1
    simp [hc]

theorem crate_name_init_error {w : World} {d : String} {e : Error} (n : String)
    (hd : w.cargo_manifest_dir = some d) (hi : init_cache w d = .error e) :
    crate_name w none n = (.err e, none) := by
  rw [crate_name_uninit n hd, hi]

theorem crate_name_init_ok {w : World} {d : String} {c : Cache} (n : String)
    (hd : w.cargo_manifest_dir = some d) (hi : init_cache w d = .ok c) :
    crate_name w none n =
      (match mapGet c.crate_names n with
       | some fc => .ok fc
       | none => .err (.CrateNotFound n c.manifest_path), some c) := by
  rw [crate_name_uninit n hd, hi]
  cases hg : mapGet c.crate_names n <;> simp [hg]

theorem lastMatch_extract_list (s : Bool) (doc : Table) (k : String)
    (hdep : ∀ e ∈ dep_pkgs doc, e.1 ≠ k) :
    lastMatch (extract_list s doc) k =
      lastMatch (root_pkg s doc).toList k := by
  simp only [extract_list]
  rw [lastMatch_append, lastMatch_eq_none hdep]

/-! ## Claims -/

/-- Claim C1: a dependency whose value is a table with a string `package`
key gets that string as its canonical name and resolves to the sanitized
declared key; concretely, for `cool = { package = "foo", version = "0.1" }`
resolution finds `foo` as `Name "cool"` and fails on `cool` with
`CrateNotFound`. -/
theorem C1_renamed_dependency :
    (∀ (dep_name : String) (t : Table) (p : String),
      getT t "package" = some (.str p) →
      dep_pkg_entry (dep_name, .table t) =
        (p, .Name (sanitize_crate_name dep_name))) ∧
    (crate_name (worldOf docRenamed) none "foo").1 = .ok (.Name "cool") ∧
    (crate_name (worldOf docRenamed) none "cool").1 =
      .err (.CrateNotFound "cool" "/my-crate/Cargo.toml") := by
  refine ⟨?_, by decide, by decide⟩
  intro dep_name t p hp
  simp [dep_pkg_entry, asTable, hp, asStr]

/-- Witness for C1: the rule applied to the concrete renamed declaration. -/
theorem C1_renamed_dependency_witness :
    dep_pkg_entry ("cool", .table [("package", .str "foo")]) =
      ("foo", .Name (sanitize_crate_name "cool")) :=
  C1_renamed_dependency.1 "cool" [("package", .str "foo")] "foo" rfl

/-- Claim C2: the self entry maps the package name to `Itself` in a
primary build and to the sanitized package name in a secondary
(integration-test) build, and the final table holds exactly that for the
package name whenever no dependency shares its canonical name; concretely
`[package] name = "foo"` under a primary build resolves `foo` to
`Itself`. -/
theorem C2_self_entry :
    (∀ (doc : Table) (n : String),
      extract_package_name doc = some n →
      root_pkg false doc = some (n, .Itself) ∧
      root_pkg true doc = some (n, .Name (sanitize_crate_name n))) ∧
    (∀ (doc : Table) (n : String) (m m' : List (String × FoundCrate)),
      extract_package_name doc = some n →
      (∀ e ∈ dep_pkgs doc, e.1 ≠ n) →
      extract_crate_names false doc = .ok m →
      extract_crate_names true doc = .ok m' →
      mapGet m n = some .Itself ∧
      mapGet m' n = some (.Name (sanitize_crate_name n))) ∧
    (crate_name (worldOf docSelf) none "foo").1 = .ok .Itself := by
  have hroot : ∀ (doc : Table) (n : String),
      extract_package_name doc = some n →
      root_pkg false doc = some (n, .Itself) ∧
      root_pkg true doc = some (n, .Name (sanitize_crate_name n)) := by
    intro doc n h
    constructor <;> simp [root_pkg, h]
  refine ⟨hroot, ?_, by decide⟩
  intro doc n m m' hpkg hdep hm hm'
  simp only [extract_crate_names, Except.ok.injEq] at hm hm'
  subst hm
  subst hm'
  rw [mapGet_collect, mapGet_collect,
      lastMatch_extract_list _ _ _ hdep, lastMatch_extract_list _ _ _ hdep,
      (hroot doc n hpkg).1, (hroot doc n hpkg).2]
  constructor <;> simp [lastMatch, Option.toList]

/-- Witness for C2: the rules applied to the concrete `[package]`
`name = "foo"` document. -/
theorem C2_self_entry_witness :
    root_pkg false docSelf = some ("foo", .Itself) ∧
    mapGet (collect (extract_list false docSelf)) "foo" = some .Itself :=
  ⟨(C2_self_entry.1 docSelf "foo" rfl).1,
   (C2_self_entry.2.1 docSelf "foo" _ _ rfl (by decide) rfl rfl).1⟩

/-- Claim C3: every identifier inside a `Name` resolution of the extracted
table is dash-free, sanitization itself never leaves a `-`, and the
canonical lookup key is never sanitized: `a-b = "0.1"` is found under
`a-b` (as `Name "a_b"`), while `a_b` is not found. -/
theorem C3_sanitized_identifiers :
    (∀ (secondary : Bool) (doc : Table) (m : List (String × FoundCrate))
      (k id : String),
      extract_crate_names secondary doc = .ok m →
      mapGet m k = some (.Name id) →
      '-' ∉ id.data) ∧
    (∀ s : String, '-' ∉ (sanitize_crate_name s).data) ∧
    (crate_name (worldOf docDash) none "a-b").1 = .ok (.Name "a_b") ∧
    (crate_name (worldOf docDash) none "a_b").1 =
      .err (.CrateNotFound "a_b" "/my-crate/Cargo.toml") := by
  refine ⟨?_, sanitize_no_dash, by decide, by decide⟩
  intro secondary doc m k id hm hget
  simp only [extract_crate_names, Except.ok.injEq] at hm
  subst hm
  rw [mapGet_collect] at hget
  rcases extract_list_shape (lastMatch_mem hget) with h | ⟨nm, h⟩
  · exact FoundCrate.noConfusion h
  · injection h with h
    subst h
    exact sanitize_no_dash nm

/-- Witness for C3: the dash-free conclusion at the concrete `a-b`
declaration. -/
theorem C3_sanitized_identifiers_witness : '-' ∉ ("a_b" : String).data :=
  C3_sanitized_identifiers.1 false docDash _ "a-b" "a_b" rfl (by decide)

/-- Claim C4: target-table extraction never inspects the platform keys
(renaming every key leaves the result unchanged), applies the same
`dependencies` / `dev-dependencies` rule as at top level, skips non-table
`target` entries, and both a cfg-expression key and a target-triple key
yield `Name "foo"` for `foo = "0.1"`. -/
theorem C4_target_tables :
    (∀ (ks ks' : List String) (vs : List TomlValue),
      ks.length = vs.length → ks'.length = vs.length →
      target_dep_tables [("target", .table (ks.zip vs))] =
        target_dep_tables [("target", .table (ks'.zip vs))]) ∧
    (∀ (cond : String) (tbl : Table),
      target_dep_tables [("target", .table [(cond, .table tbl)])] =
        dep_tables tbl) ∧
    (∀ (s : Bool) (cond : String) (v : TomlValue), asTable v = none →
      extract_crate_names s [("target", .table [(cond, v)])] = .ok []) ∧
    (crate_name (worldOf docTargetCfg) none "foo").1 = .ok (.Name "foo") ∧
    (crate_name (worldOf docTargetTriple) none "foo").1 =
      .ok (.Name "foo") := by
  have hval : ∀ (l : Table),
      target_dep_tables [("target", .table l)] =
        (((l.map Prod.snd).filterMap asTable).map dep_tables).flatten := by
    intro l
    simp [target_dep_tables, getT, asTable, Option.toList]
  refine ⟨?_, ?_, ?_, by decide, by decide⟩
  · intro ks ks' vs h1 h2
    rw [hval, hval, List.map_snd_zip ks vs (le_of_eq h1.symm),
        List.map_snd_zip ks' vs (le_of_eq h2.symm)]
  · intro cond tbl
    rw [hval]
    simp [asTable]
  · intro s cond v hv
    have ht : target_dep_tables [("target", .table [(cond, v)])] = [] := by
      rw [hval]
      simp [hv]
    simp [extract_crate_names, extract_list, root_pkg, extract_package_name,
      dep_pkgs, dep_tables, getT, ht, collect, Option.toList]

/-- Witness for C4: key-invariance and the non-table skip at concrete
inputs. -/
theorem C4_target_tables_witness :
    target_dep_tables [("target", .table (["a"].zip [.table []]))] =
      target_dep_tables [("target", .table (["b"].zip [.table []]))] ∧
    extract_crate_names false [("target", .table [("cond", .other)])] =
      .ok [] :=
  ⟨C4_target_tables.1 ["a"] ["b"] [.table []] rfl rfl,
   C4_target_tables.2.2.1 false "cond" .other rfl⟩

/-- Claim C5: a bare-string dependency value keeps the declared key as the
canonical name and maps it to the sanitized declared key; concretely
`[dependencies] foo = "0.1"` resolves `foo` to `Name "foo"`. -/
theorem C5_bare_string_dependency :
    (∀ (dep_name ver : String),
      dep_pkg_entry (dep_name, .str ver) =
        (dep_name, .Name (sanitize_crate_name dep_name))) ∧
    (∀ (s : Bool) (k ver : String),
      extract_crate_names s [("dependencies", .table [(k, .str ver)])] =
        .ok [(k, .Name (sanitize_crate_name k))]) ∧
    (crate_name (worldOf docSimple) none "foo").1 = .ok (.Name "foo") := by
  refine ⟨fun dep_name ver => rfl, ?_, by decide⟩
  intro s k ver
  rfl

/-- Claim C6: `crate_name` fails with `CargoManifestDirNotSet` when the
environment directory is unavailable, with `NotFound(dir)` when
`<dir>/Cargo.toml` does not exist, and, for a successfully built (cached)
table, with `CrateNotFound(name, manifest_path)` exactly when the
canonical name is absent from the table, otherwise returning the stored
resolution. -/
theorem C6_error_cases :
    (∀ (w : World) (st : Option Cache) (n : String),
      w.cargo_manifest_dir = none →
      (crate_name w st n).1 = .err .CargoManifestDirNotSet) ∧
    (∀ (w : World) (d n : String),
      w.cargo_manifest_dir = some d →
      w.path_exists (d ++ "/Cargo.toml") = false →
      (crate_name w none n).1 = .err (.NotFound d)) ∧
    (∀ (w : World) (st : Option Cache) (c : Cache) (n : String),
      (crate_name w st n).2 = some c →
      w.cargo_manifest_dir = some c.manifest_dir →
      (crate_name w st n).1 =
        match mapGet c.crate_names n with
        | some fc => .ok fc
        | none => .err (.CrateNotFound n c.manifest_path)) := by
  refine ⟨?_, ?_, ?_⟩
  · intro w st n h
    rw [crate_name_env_unset st n h]
  · intro w d n hd hex
    have hi : init_cache w d = .error (.NotFound d) := by
      simp [init_cache, hex]
    rw [crate_name_init_error n hd hi]
  · intro w st c n h2 hd
    cases st with
    | none =>
      cases hi : init_cache w c.manifest_dir with
      | error e =>
        rw [crate_name_init_error n hd hi] at h2
        exact Option.noConfusion h2
      | ok c' =>
        rw [crate_name_init_ok n hd hi] at h2 ⊢
        simp only [Option.some.injEq] at h2
        subst h2
        rfl
    | some c₀ =>
      by_cases hq : c.manifest_dir = c₀.manifest_dir
      · rw [crate_name_cached c₀ n hd hq] at h2 ⊢
        simp only [Option.some.injEq] at h2
        subst h2
        rfl
      · simp only [crate_name, hd, hq, if_false] at h2 ⊢
        simp only [Option.some.injEq] at h2
        subst h2
        exact absurd rfl hq

/-- Witness for C6: the three error cases at concrete worlds. -/
theorem C6_error_cases_witness :
    (crate_name worldNoEnv none "foo").1 = .err .CargoManifestDirNotSet ∧
    (crate_name worldNoManifest none "foo").1 =
      .err (.NotFound "/my-crate") ∧
    (crate_name (worldOf docSimple) (some cacheSimple) "bar").1 =
      .err (.CrateNotFound "bar" "/my-crate/Cargo.toml") := by
  refine ⟨C6_error_cases.1 worldNoEnv none "foo" rfl,
          C6_error_cases.2.1 worldNoManifest "/my-crate" "foo" rfl rfl, ?_⟩
  rw [C6_error_cases.2.2 (worldOf docSimple) (some cacheSimple) cacheSimple
        "bar" rfl rfl]
  rfl

/-- Claim C7: the table is the self entry followed by the dependency
entries folded with overwrite-on-duplicate (the last binding of a key
wins), so a dependency whose canonical name equals the package name
replaces the self entry, and a later (target) declaration replaces an
earlier (direct) one with the same canonical name. -/
theorem C7_insertion_overwrite :
    (∀ (l : List (String × FoundCrate)) (k : String),
      mapGet (collect l) k = lastMatch l k) ∧
    (∀ (s : Bool) (doc : Table) (m : List (String × FoundCrate))
      (n : String) (v : FoundCrate),
      extract_crate_names s doc = .ok m →
      lastMatch (dep_pkgs doc) n = some v →
      mapGet m n = some v) ∧
    (crate_name (worldOf docCollide) none "foo").1 = .ok (.Name "bar") ∧
    (crate_name (worldOf docOrder) none "foo").1 = .ok (.Name "c2") := by
  refine ⟨mapGet_collect, ?_, by decide, by decide⟩
  intro s doc m n v hm hd
  simp only [extract_crate_names, Except.ok.injEq] at hm
  subst hm
  rw [mapGet_collect]
  simp only [extract_list]
  rw [lastMatch_append, hd]

/-- Witness for C7: the colliding dependency entry wins over the self
entry in the concrete document. -/
theorem C7_insertion_overwrite_witness :
    mapGet (collect (extract_list false docCollide)) "foo" =
      some (.Name "bar") :=
  C7_insertion_overwrite.2.1 false docCollide _ "foo" (.Name "bar") rfl
    (by decide)

/-- Claim C8 fails as stated: a failed initialization is not stored
(`get_or_try_init` leaves the cell empty on error), so with the
environment directory unchanged a later call re-reads the manifest and can
return a different result once the file parses. -/
theorem C8_counterexample :
    worldBadToml.cargo_manifest_dir = (worldOf docSimple).cargo_manifest_dir ∧
    (crate_name worldBadToml none "foo").1 = .err .InvalidToml ∧
    (crate_name worldBadToml none "foo").2 = none ∧
    (crate_name (worldOf docSimple)
        (crate_name worldBadToml none "foo").2 "foo").1 = .ok (.Name "foo") ∧
    (crate_name worldBadToml none "foo").1 ≠
      (crate_name (worldOf docSimple)
        (crate_name worldBadToml none "foo").2 "foo").1 :=
  ⟨rfl, by decide, rfl, by decide, by decide⟩

/-- Claim C8 (amended): an immediate repeat call against an unchanged
world returns the same result; once a cache is present the call depends
only on the environment directory, never re-reading the filesystem; a
failed initialization is not stored and leaves the cell empty. -/
theorem C8_idempotence_amended :
    (∀ (w : World) (st : Option Cache) (n : String),
      (crate_name w (crate_name w st n).2 n).1 = (crate_name w st n).1) ∧
    (∀ (w w' : World) (c : Cache) (n : String),
      w.cargo_manifest_dir = w'.cargo_manifest_dir →
      crate_name w (some c) n = crate_name w' (some c) n) ∧
    (∀ (w : World) (d n : String) (e : Error),
      w.cargo_manifest_dir = some d →
      init_cache w d = .error e →
      crate_name w none n = (.err e, none)) := by
  refine ⟨?_, ?_, fun w d n e hd hi => crate_name_init_error n hd hi⟩
  · intro w st n
    cases hd : w.cargo_manifest_dir with
    | none => simp [crate_name_env_unset st n hd]
    | some d =>
      cases st with
      | some c =>
        by_cases hq : d = c.manifest_dir
        · cases hg : mapGet c.crate_names n with
          | some fc => simp [crate_name_cached c n hd hq, hg]
          | none => simp [crate_name_cached c n hd hq, hg]
        · simp [crate_name, hd, hq]
      | none =>
        cases hi : init_cache w d with
        | error e => simp [crate_name_init_error n hd hi]
        | ok c =>
          have hc := (init_cache_ok hi).1
          cases hg : mapGet c.crate_names n with
          | some fc =>
            simp [crate_name_init_ok n hd hi, hg,
              crate_name_cached c n hd hc.symm]
          | none =>
            simp [crate_name_init_ok n hd hi, hg,
              crate_name_cached c n hd hc.symm]
  · intro w w' c n h
    cases hd : w.cargo_manifest_dir with
    | none =>
      rw [crate_name_env_unset (some c) n hd,
          crate_name_env_unset (some c) n (h.symm.trans hd)]
    | some d =>
      have hd' : w'.cargo_manifest_dir = some d := h.symm.trans hd
      by_cases hq : d = c.manifest_dir
      · rw [crate_name_cached c n hd hq, crate_name_cached c n hd' hq]
      · simp [crate_name, hd, hd', hq]

/-- Witness for C8 (amended): cache-only dependence and a concrete failed
initialization. -/
theorem C8_idempotence_amended_witness :
    crate_name (worldOf docSimple) (some cacheSimple) "foo" =
      crate_name worldBadToml (some cacheSimple) "foo" ∧
    crate_name worldBadToml none "foo" = (.err .InvalidToml, none) :=
  ⟨C8_idempotence_amended.2.1 (worldOf docSimple) worldBadToml cacheSimple
      "foo" rfl,
   C8_idempotence_amended.2.2 worldBadToml "/my-crate" "foo" .InvalidToml
      rfl rfl⟩

/-- Claim C9: extraction is total — `extract_crate_names` always returns
`Ok` — and unexpected shapes (a non-string `package.name`, a non-table
`dependencies`, `dev-dependencies` or `target` value) contribute zero
entries instead of raising an error. -/
theorem C9_extraction_total :
    (∀ (s : Bool) (doc : Table), (extract_crate_names s doc).isOk = true) ∧
    (∀ (s : Bool) (v : TomlValue), asStr v = none →
      extract_crate_names s [("package", .table [("name", v)])] = .ok []) ∧
    (∀ (s : Bool) (v : TomlValue), asTable v = none →
      extract_crate_names s [("dependencies", v)] = .ok [] ∧
      extract_crate_names s [("dev-dependencies", v)] = .ok [] ∧
      extract_crate_names s [("target", v)] = .ok []) := by
  refine ⟨fun s doc => rfl, ?_, ?_⟩
  · intro s v hv
    simp [extract_crate_names, extract_list, root_pkg, extract_package_name,
      getT, asTable, hv, dep_pkgs, dep_tables, target_dep_tables, collect,
      Option.toList]
  · intro s v hv
    refine ⟨?_, ?_, ?_⟩ <;>
      simp [extract_crate_names, extract_list, root_pkg,
        extract_package_name, getT, hv, dep_pkgs, dep_tables,
        target_dep_tables, collect, Option.toList]

/-- Witness for C9: the unexpected shapes at concrete values. -/
theorem C9_extraction_total_witness :
    extract_crate_names false [("package", .table [("name", .other)])] =
      .ok [] ∧
    extract_crate_names false [("dependencies", .str "nope")] = .ok [] :=
  ⟨C9_extraction_total.2.1 false .other rfl,
   (C9_extraction_total.2.2 false (.str "nope") rfl).1⟩

/-- Claim C10: the environment directory is read before the cache is
consulted — with `CARGO_MANIFEST_DIR` unset the call fails with
`CargoManifestDirNotSet` even when the cache already holds a table. -/
theorem C10_env_read_first :
    ∀ (w : World) (st : Option Cache) (n : String),
      w.cargo_manifest_dir = none →
      crate_name w st n = (.err .CargoManifestDirNotSet, st) :=
  fun _ st n h => crate_name_env_unset st n h

/-- Witness for C10: the unset environment beats a warm cache. -/
theorem C10_env_read_first_witness :
    crate_name worldNoEnv (some cacheSimple) "foo" =
      (.err .CargoManifestDirNotSet, some cacheSimple) :=
  C10_env_read_first worldNoEnv (some cacheSimple) "foo" rfl
